import Mathlib

/-!
Verification of the hive-mind extension runtime and shared context store.

The definitions below are a shallow embedding of
`serveur/core/infrastructure/redis/redis_context.py` (the shared
conversational context store backed by a Redis list) and
`serveur/core/application/services/plugin_service.py` (the plugin
registry/loader/dispatcher), together with the error types of
`serveur/shared/errors/domain.py` they raise.

Machine-level concerns that the claims do not touch (the Redis
connection itself, TTL expiry, wall-clock time) are abstracted: the
Redis list holding the log is a `List RawEntry` of serialized records,
and timestamps are naturals.
-/

set_option autoImplicit false

namespace HiveMind

/-! ### Context store data model (`context_interface.py`) -/

/-- Message of the conversational context, `Message` in
`context_interface.py`: role, content, timestamp, optional client id and
a metadata map. Timestamps are modelled as naturals. -/
structure Message where
  role : String
  content : String
  timestamp : Nat
  client_id : Option String := none
  metadata : List (String × String) := []
  deriving Repr, DecidableEq

/-- Entry of the backing Redis list: either the JSON serialization of a
well-formed message, or a corrupted/malformed record that
`Message.from_dict`/`json.loads` would fail to parse. -/
inductive RawEntry where
  | valid (m : Message)
  | corrupt (s : String)
  deriving Repr, DecidableEq

/-- Deserialization `json.loads` followed by `Message.from_dict`: yields
the message for a well-formed record and fails on a corrupted one. -/
def parseMessage : RawEntry → Option Message
  | .valid m => some m
  | .corrupt _ => none

/-- Serialization `json.dumps(message.to_dict())`. -/
def serializeMessage (m : Message) : RawEntry :=
  .valid m

/-! ### `RedisContext.get_messages`

The Python method reads the whole list with `LRANGE 0 -1`, then for each
record: parses it (a record that fails to parse is skipped with a
warning), drops it when `since` is given and its timestamp is strictly
below `since`, and finally, when `limit` is given, truthy and positive
(`if limit and limit > 0`), keeps only the last `limit` entries
(`messages[-limit:]`). -/

/-- Body of the per-record loop of `get_messages`: parse the record,
then apply the `since` filter (`if since and message.timestamp < since:
continue`). `since` is a `datetime` in Python, which is always truthy,
so only its presence matters. -/
def keepMessage (since : Option Nat) (e : RawEntry) : Option Message :=
  match parseMessage e with
  | none => none
  | some m =>
    match since with
    | none => some m
    | some s => if m.timestamp < s then none else some m

/-- Last `n` elements of a list, Python's `xs[-n:]` for `n > 0`. -/
def takeLast {α : Type} (n : Nat) (xs : List α) : List α :=
  xs.drop (xs.length - n)

/-- `RedisContext.get_messages(limit, since)`: parse all stored records
(skipping corrupted ones), keep those with timestamp at least `since`
when given, then truncate to the last `limit` entries when `limit` is
given, nonzero and positive. -/
def get_messages (log : List RawEntry) (limit : Option Int) (since : Option Nat) :
    List Message :=
  let messages := log.filterMap (keepMessage since)
  match limit with
  | none => messages
  | some l => if l ≠ 0 ∧ 0 < l then takeLast l.toNat messages else messages

/-- `RedisContext.add_message`: build a `Message` stamped with the
current time and `RPUSH` its serialization at the tail of the list. -/
def add_message (log : List RawEntry) (role content : String)
    (client_id : Option String) (metadata : List (String × String)) (now : Nat) :
    List RawEntry :=
  log ++ [serializeMessage ⟨role, content, now, client_id, metadata⟩]

/-- `RedisContext.get_context_size`: `LLEN` of the backing list. -/
def get_context_size (log : List RawEntry) : Nat :=
  log.length

/-! ### `RedisContext.prune_old_messages`

The Python method calls `self.get_messages()` (no limit, no since),
keeps the messages whose timestamp is `>= before`, then `DELETE`s the
whole key and, when some messages are kept, `RPUSH`es their
serializations back; it returns `len(messages) - len(messages_to_keep)`. -/

/-- `RedisContext.prune_old_messages(before)` run without interference:
resulting list and returned deleted count. -/
def prune_old_messages (log : List RawEntry) (before : Nat) :
    List RawEntry × Nat :=
  let messages := get_messages log none none
  let messages_to_keep := messages.filter (fun m => before ≤ m.timestamp)
  let newLog := messages_to_keep.map serializeMessage
  (newLog, messages.length - messages_to_keep.length)

/-! ### Interleaving model for `prune` vs `append`

Redis serializes individual commands, so the atomic units of the race
are the single Redis commands each coroutine awaits: `prune_old_messages`
performs `LRANGE` (via `get_messages`), then `DEL`, then optionally one
`RPUSH`; a concurrent `add_message` performs one `RPUSH`. -/

/-- Write commands touching the messages key. -/
inductive RedisOp where
  | rpush (entries : List RawEntry)
  | del
  deriving Repr

/-- Effect of one Redis write command on the stored list. -/
def applyOp (s : List RawEntry) (op : RedisOp) : List RawEntry :=
  match op with
  | .rpush es => s ++ es
  | .del => []

/-- Effect of a sequence of Redis write commands. -/
def runOps (s : List RawEntry) (ops : List RedisOp) : List RawEntry :=
  ops.foldl applyOp s

/-- Write phase of `prune_old_messages` as the code issues it, given the
messages its initial read returned: `DEL` the whole key, then `RPUSH`
the serializations of the kept messages when there are any. -/
def pruneWriteOps (snapshot : List Message) (before : Nat) : List RedisOp :=
  let kept := snapshot.filter (fun m => before ≤ m.timestamp)
  if kept.isEmpty then [.del] else [.del, .rpush (kept.map serializeMessage)]

/-- Interleaved execution in which a concurrent `add_message` of entry
`e` lands between prune's initial read of the log and its `DEL`:
prune reads `s0`, the append makes the stored list `s0 ++ [e]`, then
prune's write phase runs. -/
def pruneRaceAppend (s0 : List RawEntry) (before : Nat) (e : RawEntry) :
    List RawEntry :=
  let snapshot := get_messages s0 none none
  let s1 := applyOp s0 (.rpush [e])
  runOps s1 (pruneWriteOps snapshot before)

/-! ### Error types (`shared/errors/domain.py`, `shared/errors/infrastructure.py`) -/

/-- Python exception as the dispatcher sees it: its class name
(`type(e).__name__`) and its message (`str(e)`). -/
structure Exn where
  type_name : String
  msg : String
  deriving Repr, DecidableEq

/-- Context attached by `execute_plugin` when wrapping a plugin fault:
the original fault's class name and the `params` map. -/
structure ExecErrorContext where
  error_type : String
  params : List (String × String)
  deriving Repr, DecidableEq

/-- `PluginExecutionError` as constructed by `plugin_service.py`:
plugin name, intent, message and optional context. -/
structure PluginExecutionError where
  plugin_name : String
  intent : String
  message : String
  context : Option ExecErrorContext
  deriving Repr, DecidableEq

/-- `ConfigurationError` as constructed by `plugin_service.py`: the
offending field, a message, and an optional context map. -/
structure ConfigurationError where
  field : String
  message : String
  context : List (String × String) := []
  deriving Repr, DecidableEq

/-! ### Plugin data model (`plugin_interface.py`) -/

/-- Parameter map `Dict[str, Any]` passed to an intent; values are
modelled as strings. -/
abbrev Params : Type := List (String × String)

/-- Live plugin instance: the methods of `PluginInterface` that the
loader and dispatcher invoke. Each async method is modelled as
returning `Except Exn`, the exception it may raise. -/
structure Plugin where
  execute : String → Params → Except Exn (List (String × String))
  get_prompt_context : String
  on_load : Except Exn Unit
  on_unload : Except Exn Unit
  health_check : Except Exn Bool

/-! ### Manifests and plugin directories (`plugin_service.py`) -/

/-- JSON value occurring in a `plugin.json` manifest. -/
inductive JsonVal where
  | str (s : String)
  | arr (xs : List String)
  | bool (b : Bool)
  deriving Repr, DecidableEq

/-- Python truthiness of a manifest value, used by
`if not manifest.get("enabled", True)`. -/
def JsonVal.truthy : JsonVal → Bool
  | .str s => s ≠ ""
  | .arr xs => !xs.isEmpty
  | .bool b => b

/-- Parsed manifest: a JSON object as an insertion-ordered dict. -/
abbrev Manifest : Type := List (String × JsonVal)

/-- Python `d.get(k)` on an insertion-ordered dict. -/
def dictGet {α : Type} (d : List (String × α)) (k : String) : Option α :=
  (d.find? (fun p => p.1 == k)).map (fun p => p.2)

/-- Python `k in d`. -/
def hasKey {α : Type} (d : List (String × α)) (k : String) : Bool :=
  (dictGet d k).isSome

/-- Python `d[k] = v`: overwrite in place when the key exists, append
otherwise (dicts preserve insertion order). -/
def dictSet {α : Type} (d : List (String × α)) (k : String) (v : α) :
    List (String × α) :=
  if hasKey d k then d.map (fun p => if p.1 == k then (k, v) else p)
  else d ++ [(k, v)]

/-- State of a plugin's `plugin.json` on disk: absent, present but not
valid JSON, or parsed into a dict. -/
inductive ManifestFile where
  | missing
  | malformed
  | parsed (m : Manifest)
  deriving Repr, DecidableEq

/-- One attribute of the handler module, in `dir(module)` order.
`impl = some p` when the attribute is a strict subclass of
`PluginInterface` whose instantiation yields `p`. -/
structure ModuleAttr where
  name : String
  impl : Option Plugin

/-- State of a plugin's `handler.py`: absent, raising during
import/execution, or imported with the given attribute list
(`dir(module)` order, which Python sorts alphabetically). -/
inductive HandlerFile where
  | missing
  | execFailed (e : Exn)
  | loaded (attrs : List ModuleAttr)

/-- On-disk state of one plugin directory as `load_plugin` probes it. -/
structure PluginDir where
  is_dir : Bool
  manifest_file : ManifestFile
  handler : HandlerFile

/-! ### `PluginLoader` (`plugin_service.py`) -/

/-- Mutable registry state of `PluginLoader`: the `loaded_plugins` and
`plugin_manifests` dicts. -/
structure PluginLoader where
  loaded_plugins : List (String × Plugin)
  plugin_manifests : List (String × Manifest)

/-- Required manifest fields checked by `_load_manifest`, in the order
the validation loop visits them. -/
def required_fields : List String :=
  ["name", "version", "description", "intents"]

/-- `PluginLoader._load_manifest`: fail when `plugin.json` is absent or
not valid JSON; otherwise raise on the first required field that is not
a key of the manifest (presence only), and return the manifest dict
unchanged when all four are present. -/
def _load_manifest (file : ManifestFile) : Except ConfigurationError Manifest :=
  match file with
  | .missing =>
      .error ⟨"plugin.json", "Manifest not found", []⟩
  | .malformed =>
      .error ⟨"plugin.json", "Invalid JSON in plugin.json", []⟩
  | .parsed manifest =>
      match required_fields.find? (fun f => !hasKey manifest f) with
      | some f => .error ⟨f, "Missing required field " ++ f, []⟩
      | none => .ok manifest

/-- `PluginLoader._load_plugin_module`: fail when `handler.py` is
absent or its import raises; otherwise scan `dir(module)` and
instantiate the first attribute that is a strict `PluginInterface`
subclass (the loop breaks at the first match), failing only when there
is none. -/
def _load_plugin_module (handler : HandlerFile) (plugin_name : String) :
    Except ConfigurationError Plugin :=
  match handler with
  | .missing =>
      .error ⟨"handler.py", "Handler not found for plugin " ++ plugin_name, []⟩
  | .execFailed e =>
      .error ⟨"handler.py", "Failed to load plugin " ++ plugin_name ++ ": " ++ e.msg,
              [("error_type", e.type_name)]⟩
  | .loaded attrs =>
      match attrs.findSome? (fun a => a.impl) with
      | none => .error ⟨"handler.py", "No PluginInterface subclass found", []⟩
      | some p => .ok p

/-- Failure of `load_plugin`: a `ConfigurationError` raised by the
loader itself, or an exception from the plugin's `on_load` hook, which
`load_plugin` does not catch and lets propagate raw. -/
inductive LoadError where
  | config (e : ConfigurationError)
  | hook (e : Exn)
  deriving Repr, DecidableEq

/-- `PluginLoader.load_plugin`: check the directory, load and validate
the manifest, return silently when `enabled` is falsy, resolve and
instantiate the handler class, await `on_load`, and only then store the
plugin and its manifest in the two registry dicts. Returns the registry
state after the call together with the raised error, if any. -/
def load_plugin (self : PluginLoader) (plugin_name : String) (dir : PluginDir) :
    PluginLoader × Option LoadError :=
  if !dir.is_dir then
    (self, some (.config ⟨"plugin_directory",
      "Plugin directory not found: " ++ plugin_name, []⟩))
  else
    match _load_manifest dir.manifest_file with
    | .error e => (self, some (.config e))
    | .ok manifest =>
      if !((dictGet manifest "enabled").getD (.bool true)).truthy then
        (self, none)
      else
        match _load_plugin_module dir.handler plugin_name with
        | .error e => (self, some (.config e))
        | .ok plugin =>
          match plugin.on_load with
          | .error e => (self, some (.hook e))
          | .ok _ =>
            ({ loaded_plugins := dictSet self.loaded_plugins plugin_name plugin,
               plugin_manifests := dictSet self.plugin_manifests plugin_name manifest },
             none)

/-- `PluginLoader.get_plugin`: `self.loaded_plugins.get(plugin_name)`. -/
def get_plugin (self : PluginLoader) (plugin_name : String) : Option Plugin :=
  dictGet self.loaded_plugins plugin_name

/-- `PluginLoader.execute_plugin`: dispatch an intent. An unknown name
raises a plugin-not-loaded `PluginExecutionError` with no context; any
exception from `execute` is caught and re-raised as a
`PluginExecutionError` carrying the plugin name, the intent, the
original exception's class name and the `params` map. -/
def execute_plugin (self : PluginLoader) (plugin_name intent : String)
    (params : Params) : Except PluginExecutionError (List (String × String)) :=
  match get_plugin self plugin_name with
  | none =>
      .error ⟨plugin_name, intent,
              "Plugin " ++ plugin_name ++ " not loaded", none⟩
  | some plugin =>
      match plugin.execute intent params with
      | .ok result => .ok result
      | .error e =>
          .error ⟨plugin_name, intent, e.msg, some ⟨e.type_name, params⟩⟩

/-- `PluginLoader.health_check_all`: iterate over the loaded plugins in
dict order, recording each `health_check` result and mapping an
exception from one plugin to `False` for that plugin alone. -/
def health_check_all (self : PluginLoader) : List (String × Bool) :=
  self.loaded_plugins.map (fun p =>
    match p.2.health_check with
    | .ok b => (p.1, b)
    | .error _ => (p.1, false))

/-! ### Concrete values used by the witnesses and counterexamples -/

/-- Concrete message at time 1. -/
def wm1 : Message := ⟨"user", "a", 1, none, []⟩

/-- Concrete message at time 2. -/
def wm2 : Message := ⟨"user", "b", 2, none, []⟩

/-- Concrete message at time 3. -/
def wm3 : Message := ⟨"user", "c", 3, none, []⟩

/-- Plugin whose implementation works: `execute` succeeds, hooks
succeed, health check passes. -/
def implAlpha : Plugin where
  execute := fun _ _ => .ok [("success", "true"), ("source", "alpha")]
  get_prompt_context := "alpha capability"
  on_load := .ok ()
  on_unload := .ok ()
  health_check := .ok true

/-- Second working plugin implementation, distinct from `implAlpha`. -/
def implBeta : Plugin where
  execute := fun _ _ => .ok [("success", "true"), ("source", "beta")]
  get_prompt_context := "beta capability"
  on_load := .ok ()
  on_unload := .ok ()
  health_check := .ok true

/-- Plugin whose `execute` raises `ValueError("boom")`. -/
def failingPlugin : Plugin where
  execute := fun _ _ => .error ⟨"ValueError", "boom"⟩
  get_prompt_context := "failing capability"
  on_load := .ok ()
  on_unload := .ok ()
  health_check := .ok true

/-- Plugin whose `health_check` raises `TimeoutError("unreachable")`. -/
def sickPlugin : Plugin where
  execute := fun _ _ => .ok [("success", "true")]
  get_prompt_context := "sick capability"
  on_load := .ok ()
  on_unload := .ok ()
  health_check := .error ⟨"TimeoutError", "unreachable"⟩

/-- Well-formed manifest used by the witnesses. -/
def validManifest : Manifest :=
  [("name", .str "weather"), ("version", .str "1.0.0"),
   ("description", .str "d"), ("intents", .arr ["get_weather"])]

/-- Manifest whose four required fields are all present but empty
(empty name, empty description, empty intents list). -/
def emptyFieldsManifest : Manifest :=
  [("name", .str ""), ("version", .str "1.0.0"),
   ("description", .str ""), ("intents", .arr [])]

/-- Registry holding one plugin whose `execute` always raises. -/
def dispatchLoader : PluginLoader :=
  ⟨[("w", failingPlugin)], [("w", validManifest)]⟩

/-- Registry with nothing loaded. -/
def emptyLoader : PluginLoader := ⟨[], []⟩

/-- Plugin directory whose `plugin.json` is absent. -/
def missingManifestDir : PluginDir := ⟨true, .missing, .missing⟩

/-- Handler module defining two concrete implementers of the plugin
interface, in `dir()` order. -/
def twoImplHandler : HandlerFile :=
  .loaded [⟨"AlphaPlugin", some implAlpha⟩, ⟨"BetaPlugin", some implBeta⟩]

/-- Plugin directory whose manifest has all required fields present but
empty, and a well-formed handler. -/
def emptyFieldsDir : PluginDir :=
  ⟨true, .parsed emptyFieldsManifest, .loaded [⟨"EmptyPlugin", some implAlpha⟩]⟩

/-! ### Helper lemmas about `get_messages` -/

/-- Parsing a log of serialized well-formed messages with no `since`
filter returns exactly those messages. -/
theorem filterMap_keep_all (log : List Message) :
    (log.map serializeMessage).filterMap (keepMessage none) = log := by
  induction log with
  | nil => rfl
  | cons m t ih => simp [keepMessage, parseMessage, serializeMessage, ih]

/-- Parsing a log of serialized well-formed messages with a `since`
filter keeps exactly the messages with timestamp at least `since`. -/
theorem filterMap_keep_since (log : List Message) (s : Nat) :
    (log.map serializeMessage).filterMap (keepMessage (some s)) =
      log.filter (fun m => s ≤ m.timestamp) := by
  induction log with
  | nil => rfl
  | cons m t ih =>
    rcases Nat.lt_or_ge m.timestamp s with h | h
    · simp [keepMessage, parseMessage, serializeMessage, List.filter_cons, h,
            Nat.not_le.mpr h, ih]
    · simp [keepMessage, parseMessage, serializeMessage, List.filter_cons, h,
            Nat.not_lt.mpr h, ih]

/-- Reading a log of serialized well-formed messages with no limit and
no `since` filter returns exactly those messages. -/
theorem get_messages_all_valid (log : List Message) :
    get_messages (log.map serializeMessage) none none = log := by
  show (log.map serializeMessage).filterMap (keepMessage none) = log
  exact filterMap_keep_all log

/-- Length of the entries a Boolean filter removes. -/
theorem length_filter_not_eq_sub {α : Type} (p : α → Bool) (l : List α) :
    (l.filter (fun a => !p a)).length = l.length - (l.filter p).length := by
  induction l with
  | nil => rfl
  | cons a t ih =>
    have hle := List.length_filter_le p t
    by_cases h : p a
    · simp [List.filter_cons, h, ih]
    · simp [List.filter_cons, h, ih]
      omega

/-! ### Claims about the context store -/

/-- C4: for every log of well-formed messages and every cutoff `before`,
`prune_old_messages` keeps exactly the messages with timestamp at least
`before`, in their original order, and returns the number of messages
with timestamp strictly below `before`. -/
theorem prune_removes_exactly_older (log : List Message) (before : Nat) :
    prune_old_messages (log.map serializeMessage) before =
      ((log.filter (fun m => before ≤ m.timestamp)).map serializeMessage,
       (log.filter (fun m => m.timestamp < before)).length) := by
  have hfun : (fun m : Message => decide (m.timestamp < before)) =
      (fun m : Message => !decide (before ≤ m.timestamp)) := by
    funext m
    rcases Nat.lt_or_ge m.timestamp before with h | h
    · simp [h, Nat.not_le.mpr h]
    · simp [Nat.not_lt.mpr h, h]
  simp only [prune_old_messages, get_messages_all_valid]
  refine Prod.ext rfl ?_
  show log.length - _ = _
  rw [show (fun m : Message => decide (m.timestamp < before)) =
        (fun m : Message => !decide (before ≤ m.timestamp)) from hfun,
      length_filter_not_eq_sub]

/-- C5: for every chronologically sorted log of well-formed messages,
`get_messages` with a `since` bound returns exactly the messages with
timestamp at least `since` (inclusive), still in ascending order, and a
positive `limit` keeps the last `limit` entries of that filtered
sequence, order preserved. -/
theorem read_since_inclusive_sorted (log : List Message) (s : Nat)
    (hsorted : log.Pairwise (fun a b => a.timestamp ≤ b.timestamp)) :
    (get_messages (log.map serializeMessage) none (some s) =
        log.filter (fun m => s ≤ m.timestamp)) ∧
    (∀ l : Int, 0 < l →
      get_messages (log.map serializeMessage) (some l) (some s) =
        takeLast l.toNat (log.filter (fun m => s ≤ m.timestamp))) ∧
    (log.filter (fun m => s ≤ m.timestamp)).Pairwise
        (fun a b => a.timestamp ≤ b.timestamp) ∧
    (∀ l : Int, (takeLast l.toNat
        (log.filter (fun m => s ≤ m.timestamp))).Pairwise
        (fun a b => a.timestamp ≤ b.timestamp)) := by
  have hfiltered : (log.filter (fun m => s ≤ m.timestamp)).Pairwise
      (fun a b : Message => a.timestamp ≤ b.timestamp) :=
    hsorted.sublist (List.filter_sublist log)
  refine ⟨?_, ?_, hfiltered, ?_⟩
  · show (log.map serializeMessage).filterMap (keepMessage (some s)) = _
    exact filterMap_keep_since log s
  · intro l hl
    have hcond : l ≠ 0 ∧ 0 < l := ⟨by omega, hl⟩
    show (if l ≠ 0 ∧ 0 < l then
            takeLast l.toNat ((log.map serializeMessage).filterMap (keepMessage (some s)))
          else (log.map serializeMessage).filterMap (keepMessage (some s))) = _
    rw [if_pos hcond, filterMap_keep_since]
  · intro l
    show ((log.filter (fun m => s ≤ m.timestamp)).drop _).Pairwise _
    exact hfiltered.sublist (List.drop_sublist _ _)

/-- Witness for C5: on the log of three messages at times 1 < 2 < 3,
reading with `since = 2` returns exactly the messages at times 2 and 3,
in that order. -/
theorem read_since_inclusive_sorted_witness :
    ([wm1, wm2, wm3].Pairwise (fun a b => a.timestamp ≤ b.timestamp)) ∧
    get_messages ([wm1, wm2, wm3].map serializeMessage) none (some 2) =
      [wm2, wm3] := by
  refine ⟨by decide, ?_⟩
  rw [(read_since_inclusive_sorted [wm1, wm2, wm3] 2 (by decide)).1]
  decide

/-- C9: for every log, a `limit` of zero (or any non-positive value) is
ignored by `get_messages`: the call behaves as if no limit was given,
returning all stored messages rather than none. -/
theorem read_nonpositive_limit_ignored (log : List RawEntry)
    (since : Option Nat) (l : Int) (h : l ≤ 0) :
    get_messages log (some l) since = get_messages log none since := by
  have hcond : ¬(l ≠ 0 ∧ 0 < l) := by rintro ⟨h1, h2⟩; omega
  simp [get_messages, hcond]

/-- Witness for C9: reading with `limit = 0` on a one-message log
returns the same as reading with no limit. -/
theorem read_nonpositive_limit_ignored_witness :
    (0 : Int) ≤ 0 ∧
    get_messages [serializeMessage wm1] (some 0) none =
      get_messages [serializeMessage wm1] none none :=
  ⟨le_refl 0, read_nonpositive_limit_ignored [serializeMessage wm1] none 0 (le_refl 0)⟩

/-- C10: for every log, a record that fails to deserialize is skipped
by `get_messages`, which returns the remaining well-formed messages as
if the corrupted record were not there, instead of failing. -/
theorem read_skips_corrupt_entry (pre post : List RawEntry) (s : String)
    (limit : Option Int) (since : Option Nat) :
    get_messages (pre ++ RawEntry.corrupt s :: post) limit since =
      get_messages (pre ++ post) limit since := by
  simp [get_messages, List.filterMap_append, List.filterMap_cons,
        keepMessage, parseMessage]

/-- C3: the prune/append race loses the concurrent append. Whatever
entry a concurrent `add_message` lands between prune's initial read of
the log and its `DEL`, the final log is exactly what an uninterfered
prune would have produced — the appended entry is wiped out by the
blind delete-and-rewrite. In particular, on a log holding one message
at time 1, pruning with cutoff 5 while a message at time 10 is appended
after the read leaves the log empty: the new message is lost. -/
theorem prune_race_drops_concurrent_append :
    (∀ (s0 : List RawEntry) (before : Nat) (e : RawEntry),
        pruneRaceAppend s0 before e = (prune_old_messages s0 before).1) ∧
    pruneRaceAppend [serializeMessage ⟨"user", "old", 1, none, []⟩] 5
        (serializeMessage ⟨"user", "new", 10, none, []⟩) = [] := by
  constructor
  · intro s0 before e
    simp only [pruneRaceAppend, prune_old_messages, pruneWriteOps]
    by_cases h : ((get_messages s0 none none).filter
        (fun m => before ≤ m.timestamp)).isEmpty
    · simp [h, runOps, applyOp, List.isEmpty_iff.mp h]
    · simp [h, runOps, applyOp]
  · decide

/-! ### Claims about the plugin loader and dispatcher -/

/-- C1: every dispatch failure surfaces as a classified
`PluginExecutionError`: a name that is not loaded fails with the
plugin-not-loaded error carrying the name and intent, and any exception
raised by the loaded plugin's `execute` is caught and re-raised as a
`PluginExecutionError` carrying the plugin name, the intent, the params
map and the original exception's class name in its context. -/
theorem dispatch_failures_classified (self : PluginLoader)
    (plugin_name intent : String) (params : Params) :
    (get_plugin self plugin_name = none →
      execute_plugin self plugin_name intent params =
        .error ⟨plugin_name, intent,
                "Plugin " ++ plugin_name ++ " not loaded", none⟩) ∧
    (∀ (plugin : Plugin) (e : Exn),
      get_plugin self plugin_name = some plugin →
      plugin.execute intent params = .error e →
      execute_plugin self plugin_name intent params =
        .error ⟨plugin_name, intent, e.msg, some ⟨e.type_name, params⟩⟩) := by
  constructor
  · intro h
    simp [execute_plugin, h]
  · intro plugin e h he
    simp [execute_plugin, h, he]

/-- Witness for C1: dispatching to the never-loaded name `ghost` fails
with the plugin-not-loaded error, and dispatching to the loaded plugin
`w`, whose `execute` raises `ValueError("boom")`, fails with a
`PluginExecutionError` carrying name, intent, params and the class name
`ValueError`. -/
theorem dispatch_failures_classified_witness :
    execute_plugin dispatchLoader "ghost" "get_weather" [] =
      .error ⟨"ghost", "get_weather", "Plugin ghost not loaded", none⟩ ∧
    execute_plugin dispatchLoader "w" "get_weather" [("location", "Belfort")] =
      .error ⟨"w", "get_weather", "boom",
              some ⟨"ValueError", [("location", "Belfort")]⟩⟩ :=
  ⟨(dispatch_failures_classified dispatchLoader "ghost" "get_weather" []).1 rfl,
   (dispatch_failures_classified dispatchLoader "w" "get_weather"
      [("location", "Belfort")]).2 failingPlugin ⟨"ValueError", "boom"⟩ rfl rfl⟩

/-- C2: whenever `load_plugin` fails — absent directory, missing or
malformed manifest, missing required field, missing or unresolvable
handler, or a raising `on_load` hook — the registry state after the
call (both the loaded-plugins dict and the manifests dict) is exactly
the state before it. -/
theorem failed_load_leaves_registry_unchanged (self : PluginLoader)
    (plugin_name : String) (dir : PluginDir) (err : LoadError)
    (h : (load_plugin self plugin_name dir).2 = some err) :
    (load_plugin self plugin_name dir).1 = self := by
  obtain ⟨isdir, mf, hf⟩ := dir
  cases isdir with
  | false => rfl
  | true =>
    cases hm : _load_manifest mf with
    | error e => simp [load_plugin, hm]
    | ok manifest =>
      cases hen : ((dictGet manifest "enabled").getD (.bool true)).truthy with
      | false => simp [load_plugin, hm, hen]
      | true =>
        cases hmod : _load_plugin_module hf plugin_name with
        | error e => simp [load_plugin, hm, hen, hmod]
        | ok plugin =>
          cases hl : plugin.on_load with
          | error e => simp [load_plugin, hm, hen, hmod, hl]
          | ok u =>
            exfalso
            simp [load_plugin, hm, hen, hmod, hl] at h

/-- Witness for C2: loading `ghost` from a directory with no
`plugin.json` fails with the manifest-not-found configuration fault and
leaves the empty registry exactly empty. -/
theorem failed_load_leaves_registry_unchanged_witness :
    (load_plugin emptyLoader "ghost" missingManifestDir).2 =
      some (.config ⟨"plugin.json", "Manifest not found", []⟩) ∧
    (load_plugin emptyLoader "ghost" missingManifestDir).1 = emptyLoader :=
  ⟨rfl, failed_load_leaves_registry_unchanged emptyLoader "ghost"
     missingManifestDir (.config ⟨"plugin.json", "Manifest not found", []⟩) rfl⟩

/-- C6 counterexample: a handler module containing two concrete
implementers of the plugin interface is not rejected as ambiguous; the
load succeeds and silently returns the first implementer in module
attribute order. -/
theorem ambiguous_module_not_rejected :
    (_load_plugin_module twoImplHandler "dup").isOk = true ∧
    _load_plugin_module twoImplHandler "dup" = .ok implAlpha :=
  ⟨rfl, rfl⟩

/-- C6 (amended): a module with zero implementing classes fails with a
configuration fault; otherwise the first implementing attribute in
module attribute order is instantiated and returned, and any further
implementing classes are ignored rather than rejected. -/
theorem module_resolution_picks_first (attrs : List ModuleAttr)
    (plugin_name : String) :
    ((∀ a ∈ attrs, a.impl = none) →
      _load_plugin_module (.loaded attrs) plugin_name =
        .error ⟨"handler.py", "No PluginInterface subclass found", []⟩) ∧
    (∀ (pre post : List ModuleAttr) (a : ModuleAttr) (p : Plugin),
      attrs = pre ++ a :: post →
      (∀ b ∈ pre, b.impl = none) → a.impl = some p →
      _load_plugin_module (.loaded attrs) plugin_name = .ok p) := by
  constructor
  · intro hall
    have hnone : attrs.findSome? (fun a => a.impl) = none := by
      induction attrs with
      | nil => rfl
      | cons a t ih =>
        have ha := hall a (List.mem_cons_self a t)
        simp only [List.findSome?_cons, ha]
        exact ih (fun b hb => hall b (List.mem_cons_of_mem a hb))
    simp [_load_plugin_module, hnone]
  · rintro pre post a p rfl hpre ha
    have hsome : (pre ++ a :: post).findSome? (fun x => x.impl) = some p := by
      induction pre with
      | nil => simp [List.findSome?_cons, ha]
      | cons b t ih =>
        have hb := hpre b (List.mem_cons_self b t)
        simp only [List.cons_append, List.findSome?_cons, hb]
        exact ih (fun c hc => hpre c (List.mem_cons_of_mem b hc))
    simp [_load_plugin_module, hsome]

/-- Witness for C6 (amended): a module whose only attribute is not an
implementer fails with the configuration fault, and the two-implementer
module resolves to the first implementer. -/
theorem module_resolution_picks_first_witness :
    _load_plugin_module (.loaded [⟨"helper_fn", none⟩]) "empty" =
      .error ⟨"handler.py", "No PluginInterface subclass found", []⟩ ∧
    _load_plugin_module twoImplHandler "dup" = .ok implAlpha :=
  ⟨(module_resolution_picks_first [⟨"helper_fn", none⟩] "empty").1
      (by intro a ha; rw [List.mem_singleton.mp ha]),
   (module_resolution_picks_first
      [⟨"AlphaPlugin", some implAlpha⟩, ⟨"BetaPlugin", some implBeta⟩] "dup").2
      [] [⟨"BetaPlugin", some implBeta⟩] ⟨"AlphaPlugin", some implAlpha⟩
      implAlpha rfl (by intro b hb; cases hb) rfl⟩

/-- C7 counterexample: a manifest whose four required fields are all
present but empty (empty name, empty description, empty intents list)
is accepted by `load_plugin` — the call succeeds and registers the
manifest as-is instead of failing with a configuration fault. -/
theorem empty_fields_manifest_accepted :
    (load_plugin emptyLoader "empty" emptyFieldsDir).2 = none ∧
    (load_plugin emptyLoader "empty" emptyFieldsDir).1.plugin_manifests =
      [("empty", emptyFieldsManifest)] :=
  ⟨rfl, rfl⟩

/-- C7 (amended): manifest validation checks only the presence of the
four required fields: the manifest is accepted exactly when `name`,
`version`, `description` and `intents` are all keys of the document,
whatever their values — emptiness is not checked. -/
theorem manifest_validation_presence_only (m : Manifest) :
    _load_manifest (.parsed m) = .ok m ↔
      ∀ f ∈ required_fields, hasKey m f := by
  unfold _load_manifest
  cases hfind : required_fields.find? (fun f => !hasKey m f) with
  | none =>
    simp only [hfind]
    constructor
    · intro _ f hf
      have := List.find?_eq_none.mp hfind f hf
      simpa using this
    · intro _
      trivial
  | some f =>
    simp only [hfind]
    constructor
    · intro h
      cases h
    · intro hall
      have hp := List.find?_some hfind
      have hf : f ∈ required_fields := List.mem_of_find?_eq_some hfind
      rw [hall f hf] at hp
      cases hp

/-- C8: `health_check_all` isolates failures per plugin: for any
registry in which plugin `n` raises from its health check, the returned
map marks `n` unhealthy while the entries for the plugins before and
after it are exactly what they would be on their own — the scan is not
aborted and the other results are unaffected. -/
theorem health_check_isolates_failures (pre post : List (String × Plugin))
    (manifests : List (String × Manifest)) (n : String) (p : Plugin) (e : Exn)
    (h : p.health_check = .error e) :
    health_check_all ⟨pre ++ (n, p) :: post, manifests⟩ =
      health_check_all ⟨pre, manifests⟩ ++ (n, false) ::
        health_check_all ⟨post, manifests⟩ := by
  simp [health_check_all, h]

/-- Witness for C8: on a registry with a healthy plugin, a plugin whose
health check raises, and another healthy plugin, the scan returns true,
false, true in order. -/
theorem health_check_isolates_failures_witness :
    sickPlugin.health_check = .error ⟨"TimeoutError", "unreachable"⟩ ∧
    health_check_all ⟨[("a", implAlpha), ("s", sickPlugin), ("b", implBeta)], []⟩ =
      [("a", true), ("s", false), ("b", true)] := by
  refine ⟨rfl, ?_⟩
  exact (health_check_isolates_failures [("a", implAlpha)] [("b", implBeta)] []
      "s" sickPlugin ⟨"TimeoutError", "unreachable"⟩ rfl).trans (by rfl)

end HiveMind
